import Mathlib

/-!
Shallow embedding of the custom growable array in src/vector.h
(template class Vector<T, Alloc>) and proofs about its public operations.

Machine integers (size_t) are modelled as Nat; the only place where the
finite width matters is Vector::index, whose cast chain
ptrdiff_t -> int -> size_t is modelled explicitly (castIntToSizeT).
Fallible operations (the ones that throw) return Except.
-/

namespace CustomVector

/-- Failure taxonomy of the container (spec section 7).  The source throws
std exceptions: out_of_range for bad indices, out_of_range with message
"Vector is empty" for pop_back/back on an empty vector (the spec names this
Underflow), length_error, bad_alloc, and it rethrows whatever an element
constructor throws during a transfer (elementFailure here). -/
inductive VErr
  | outOfRange
  | underflow
  | lengthError
  | allocFailure
  | elementFailure
deriving DecidableEq

/-- Logical state of a Vector<T>: the live elements data_[0 .. size_), the
capacity_ member, and whether data_ is non-null.  size_ is the length of
elems.  Element contents across a reallocation follow the element-wise
move path (uninitialized_move_n); the trivially-copyable memcpy path of
Vector::resize is modelled separately below (memcpyPathElems), because it
does not preserve the elements. -/
structure Vec (α : Type) where
  elems : List α
  capacity : Nat
  hasBuf : Bool
deriving DecidableEq

/-- size_ member: number of live elements. -/
def Vec.size (v : Vec α) : Nat := v.elems.length

/-- Vector::empty(). -/
def Vec.isEmpty (v : Vec α) : Bool := v.size == 0

/-- The capacity computed by Vector::resize (line 37):
max(newCapacity, capacity_ == 0 ? 1 : capacity_ + (capacity_ >> 1) + 1). -/
def growCap (cap requested : Nat) : Nat :=
  max requested (if cap = 0 then 1 else cap + cap / 2 + 1)

/-- Vector::resize(newCapacity): allocates a buffer of growCap slots and
transfers the live elements (element-wise path; see memcpyPathElems for
the trivially-copyable path). -/
def Vec.resize (v : Vec α) (newCapacity : Nat) : Vec α :=
  { v with capacity := growCap v.capacity newCapacity, hasBuf := true }

/-- Vector::reserve(newCapacity): resizes only when the request exceeds the
current capacity. -/
def Vec.reserve (v : Vec α) (n : Nat) : Vec α :=
  if n > v.capacity then v.resize n else v

/-- Vector::emplace_back: grows when size_ == capacity_ (requesting
capacity_ + (capacity_ >> 1) + 1, or 1 from capacity 0), then constructs at
slot size_ and increments size_.  The second component counts the calls to
AllocTraits::allocate the operation performed (1 when it resized, else 0). -/
def Vec.emplaceBack (v : Vec α) (x : α) : Vec α × Nat :=
  if v.size = v.capacity then
    let w := v.resize (if v.capacity = 0 then 1 else v.capacity + v.capacity / 2 + 1)
    ({ w with elems := w.elems ++ [x] }, 1)
  else
    ({ v with elems := v.elems ++ [x] }, 0)

/-- Vector::push_back(value): delegates to emplace_back. -/
def Vec.pushBack (v : Vec α) (x : α) : Vec α := (v.emplaceBack x).1

/-- Vector::pop_back: throws on an empty vector ("Vector is empty", the
spec's Underflow), otherwise removes the last live element.  The slot the
destroy call actually targets is modelled separately (popBackDestroy). -/
def Vec.popBack (v : Vec α) : Except VErr (Vec α) :=
  if v.size = 0 then .error .underflow
  else .ok { v with elems := v.elems.dropLast }

/-- Vector::insert(element, index): out_of_range when index > size_; when
full it requests capacity_ + (capacity_ >> 1) (note: no +1, unlike
emplace_back) through reserve; then shifts [index, size_) right one slot
and constructs the element at index, incrementing size_.  When reserve was
a no-op and the vector was full, the construct writes past the buffer; the
logical sequence still gains the element, which is what the machine state
reflects (size_ is incremented past capacity_). -/
def Vec.insert (v : Vec α) (x : α) (i : Nat) : Except VErr (Vec α) :=
  if i > v.size then .error .outOfRange
  else
    let w := if v.size = v.capacity then
        v.reserve (if v.capacity = 0 then 1 else v.capacity + v.capacity / 2)
      else v
    .ok { w with elems := w.elems.take i ++ x :: w.elems.drop i }

/-- Vector::erase(index): out_of_range when index >= size_; otherwise
shifts [index+1, size_) left one slot, destroys the trailing slot and
decrements size_. -/
def Vec.eraseAt (v : Vec α) (i : Nat) : Except VErr (Vec α) :=
  if i ≥ v.size then .error .outOfRange
  else .ok { v with elems := v.elems.take i ++ v.elems.drop (i + 1) }

/-- Vector::erase(first_index, last_index): out_of_range when
first > last or last > size_; returns unchanged when first == last;
otherwise moves [last, size_) to first, destroys the last - first trailing
slots and decrements size_ by that count. -/
def Vec.eraseRange (v : Vec α) (first last : Nat) : Except VErr (Vec α) :=
  if first > last ∨ last > v.size then .error .outOfRange
  else if first = last then .ok v
  else .ok { v with elems := v.elems.take first ++ v.elems.drop last }

/-- Vector::clear(): destroys the live elements, keeps the capacity. -/
def Vec.clear (v : Vec α) : Vec α := { v with elems := [] }

/-- Vector::shrink_to_fit(): reallocates to exactly size_ slots when
size_ < capacity_ (realloc fast path or move transfer; same logical
result). -/
def Vec.shrinkToFit (v : Vec α) : Vec α :=
  if v.size < v.capacity then { v with capacity := v.size } else v

/-- Vector::at(index): bounds-checked access. -/
def Vec.atIdx (v : Vec α) (i : Nat) : Except VErr α :=
  if h : i ≥ v.size then .error .outOfRange
  else .ok (v.elems.get ⟨i, by simpa [Vec.size] using Nat.lt_of_not_le h⟩)

/-- Default constructor Vector(): capacity_ 10, size_ 0, buffer allocated. -/
def Vec.mkDefault : Vec α := ⟨[], 10, true⟩

/-- Vector(count, value): capacity_ count, count copies of value. -/
def Vec.mkCountValue (n : Nat) (x : α) : Vec α := ⟨List.replicate n x, n, true⟩

/-- Vector(initializer_list): capacity_ init.size(), the listed elements. -/
def Vec.mkFromList (l : List α) : Vec α := ⟨l, l.length, true⟩

/-- Copy constructor Vector(const Vector&): deep copy of the elements
(capacity_ is set to other.capacity_ even though only other.size_ slots
are allocated). -/
def Vec.copyCtor (v : Vec α) : Vec α := ⟨v.elems, v.capacity, true⟩

/-- Move constructor Vector(Vector&&): std::exchange of the three members;
the source is left with size_ 0, capacity_ 0, data_ nullptr.  The second
component counts the calls to AllocTraits::allocate in the source of the
move constructor (there are none). -/
def Vec.moveCtor (v : Vec α) : (Vec α × Vec α) × Nat :=
  ((⟨v.elems, v.capacity, v.hasBuf⟩, ⟨[], 0, false⟩), 0)

/-- Move assignment operator=(Vector&&): clearMemory() on the target, then
std::exchange of the three members from the source.  First result is the
target after the call, second the source after the call; the Nat counts
the calls to AllocTraits::allocate (none). -/
def Vec.moveAssign (_tgt src : Vec α) : (Vec α × Vec α) × Nat :=
  ((⟨src.elems, src.capacity, src.hasBuf⟩, ⟨[], 0, false⟩), 0)

/-- Offset returned by std::find(data_, data_ + size_, element) relative
to data_: the first index holding an equal element, or the length of the
scanned range when none does. -/
def findOffset [DecidableEq α] : List α → α → Nat
  | [], _ => 0
  | y :: ys, x => if y = x then 0 else findOffset ys x + 1

/-- Vector::find(element): the std::find result compared with the end
pointer. -/
def Vec.find [DecidableEq α] (v : Vec α) (x : α) : Bool :=
  findOffset v.elems x != v.size

/-- The value produced by returning static_cast<int>(i) from a function
whose return type is size_t: i is reduced mod 2^32, reinterpreted as a
signed 32-bit value, then converted to the unsigned 64-bit size_t. -/
def castIntToSizeT (i : Nat) : Nat :=
  if i % 4294967296 < 2147483648 then i % 4294967296
  else 18446744073709551616 - (4294967296 - i % 4294967296)

/-- Vector::index(element):
return it != data_ + size_ ? static_cast<int>(it - data_) : -1;
with return type size_t, so -1 becomes 2^64 - 1 and a found offset passes
through the int cast. -/
def Vec.indexOf [DecidableEq α] (v : Vec α) (x : α) : Nat :=
  if findOffset v.elems x ≠ v.size then castIntToSizeT (findOffset v.elems x)
  else 18446744073709551615

/-!
Byte-level model of the trivially-copyable transfer path of
Vector::resize.  An element of a trivially copyable type occupies a fixed
number of consecutive bytes; the old buffer is the concatenation of the
live elements byte representations.  The source executes
memcpy(newData, data_, oldSize): the third argument is the element count
size_, so exactly size_ bytes land in the new buffer, and the remaining
bytes of the new buffer are whatever the allocator returned (junk).
-/

/-- Bytes of the old buffer occupied by the live elements. -/
def bytesOfElems (elems : List (List Nat)) : List Nat := elems.flatten

/-- Contents of the new buffer after memcpy(newData, data_, count):
the first count bytes of the old buffer followed by the untouched
allocator-supplied bytes. -/
def memcpyNewBytes (oldBytes : List Nat) (count : Nat) (junk : List Nat) : List Nat :=
  oldBytes.take count ++ junk

/-- Reading count elements of elemSize bytes each back out of a buffer. -/
def readElems (elemSize : Nat) (bytes : List Nat) (count : Nat) : List (List Nat) :=
  (List.range count).map (fun i => (bytes.drop (i * elemSize)).take elemSize)

/-- The element-wise transfer path (uninitialized_move_n) of
Vector::resize: every live element reaches the new buffer intact. -/
def movePathElems (elems : List (List Nat)) : List (List Nat) := elems

/-- The trivially-copyable transfer path of Vector::resize: the live
elements read back from the new buffer after
memcpy(newData, data_, oldSize). -/
def memcpyPathElems (elemSize : Nat) (elems : List (List Nat)) (junk : List Nat) :
    List (List Nat) :=
  readElems elemSize (memcpyNewBytes (bytesOfElems elems) elems.length junk) elems.length

/-!
Allocator-call trace model of Vector::resize on the element-wise
(non-trivially-copyable) path, used for the failure-rollback behaviour.
Buffers are named by numeric identities.
-/

/-- One call into the allocator / element lifetime machinery. -/
inductive MemAction
  | allocate (buf cap : Nat)
  | moveConstruct (src dst cnt : Nat)
  | destroyPartial (buf cnt : Nat)
  | destroyLive (buf cnt : Nat)
  | deallocate (buf cnt : Nat)
deriving DecidableEq

/-- Which buffer a deallocate action releases, if the action is one. -/
def MemAction.deallocGets : MemAction → Option Nat
  | .deallocate b _ => some b
  | _ => none

/-- Members of a Vector relevant to resize: the identity of data_, size_
and capacity_. -/
structure MVec where
  buf : Nat
  size : Nat
  capacity : Nat
deriving DecidableEq

/-- Vector::resize(newCapacity) on the element-wise path.  freshBuf is the
buffer AllocTraits::allocate returns; failAt = some k means
uninitialized_move_n throws after move-constructing k destination
elements (it destroys those k itself before propagating).  The catch
handler in the source then executes
AllocTraits::deallocate(alloc_, data_, oldSize) and rethrows, so the
trace records a deallocation of the ORIGINAL buffer and the members are
left unchanged (data_ now pointing at freed memory); the fresh buffer is
never deallocated.  On success clearMemory() destroys the old live
elements, deallocates the old buffer and the members move to the new
buffer with capacity growCap. -/
def resizeTrace (v : MVec) (newCapacity freshBuf : Nat) (failAt : Option Nat) :
    Except VErr MVec × List MemAction :=
  let newCap := growCap v.capacity newCapacity
  match failAt with
  | some k =>
    (.error .elementFailure,
     [.allocate freshBuf newCap,
      .moveConstruct v.buf freshBuf k,
      .destroyPartial freshBuf k,
      .deallocate v.buf v.size])
  | none =>
    (.ok ⟨freshBuf, v.size, newCap⟩,
     [.allocate freshBuf newCap,
      .moveConstruct v.buf freshBuf v.size,
      .destroyLive v.buf v.size,
      .deallocate v.buf v.capacity])

/-!
Destroy-target model of Vector::pop_back.  After the emptiness check the
source branches on is_trivially_destructible_v<T>: the trivial branch
calls the pseudo-destructor on data_ + size_ - 1, the other branch calls
AllocTraits::destroy(alloc_, data_ + size_) - one slot past the last live
element - and only then decrements size_.
-/

/-- Vector::pop_back: result is (new size_, index of the slot the destroy
call targets). -/
def popBackDestroy (size : Nat) (trivialDtor : Bool) : Except VErr (Nat × Nat) :=
  if size = 0 then .error .underflow
  else if trivialDtor then .ok (size - 1, size - 1)
  else .ok (size - 1, size)

/-!
Model of the copy assignment operator=(const Vector&) with explicit
buffer identities and failure points.  The source (for distinct objects)
executes, in this order and with no try/catch:
  AllocTraits::deallocate(alloc_, data_, size_);   -- old buffer freed
  size_ = other.size_;
  capacity_ = other.capacity_;
  data_ = AllocTraits::allocate(alloc_, capacity_); -- may throw
  std::uninitialized_copy(other.data_, other.data_ + other.size_, data_);
-/

/-- A vector with an explicit buffer identity.  content lists the live,
constructed elements; bufFreed records that data_ points at memory that
has already been returned to the allocator. -/
structure AVec (α : Type) where
  buf : Nat
  size : Nat
  capacity : Nat
  content : List α
  bufFreed : Bool
deriving DecidableEq

/-- Failure points of the copy assignment body. -/
inductive CopyFail
  | alloc
  | copyElems
deriving DecidableEq

/-- operator=(const Vector&) for distinct objects.  freshBuf is the buffer
allocate would return.  Result: the target's members after the call and
the error that propagates, if any.  On an allocation failure the old
buffer is already freed and size_/capacity_ already overwritten; on a
copy failure the fresh buffer holds no live elements (uninitialized_copy
destroys the ones it constructed before propagating). -/
def copyAssign (tgt src : AVec α) (freshBuf : Nat) (fail : Option CopyFail) :
    AVec α × Option VErr :=
  match fail with
  | some .alloc =>
    ({ buf := tgt.buf, size := src.size, capacity := src.capacity,
       content := [], bufFreed := true }, some .allocFailure)
  | some .copyElems =>
    ({ buf := freshBuf, size := src.size, capacity := src.capacity,
       content := [], bufFreed := false }, some .elementFailure)
  | none =>
    ({ buf := freshBuf, size := src.size, capacity := src.capacity,
       content := src.content, bufFreed := false }, none)

/-- States reachable through the public surface: any constructor followed
by any sequence of public operations (failing calls leave the state
unchanged, so only successful results extend a trace). -/
inductive Reachable : Vec Nat → Prop
  | default_ctor : Reachable Vec.mkDefault
  | count_value (n x : Nat) : Reachable (Vec.mkCountValue n x)
  | from_list (l : List Nat) : Reachable (Vec.mkFromList l)
  | push (v : Vec Nat) (x : Nat) : Reachable v → Reachable (v.pushBack x)
  | pop (v w : Vec Nat) : Reachable v → v.popBack = .ok w → Reachable w
  | ins (v w : Vec Nat) (x i : Nat) : Reachable v → v.insert x i = .ok w → Reachable w
  | ers (v w : Vec Nat) (i : Nat) : Reachable v → v.eraseAt i = .ok w → Reachable w
  | ersRange (v w : Vec Nat) (i j : Nat) :
      Reachable v → v.eraseRange i j = .ok w → Reachable w
  | clr (v : Vec Nat) : Reachable v → Reachable v.clear
  | res (v : Vec Nat) (n : Nat) : Reachable v → Reachable (v.reserve n)
  | shrink (v : Vec Nat) : Reachable v → Reachable v.shrinkToFit
  | copy (v : Vec Nat) : Reachable v → Reachable v.copyCtor
  | moved_from (v : Vec Nat) : Reachable v → Reachable v.moveCtor.1.2
  | moved_to (v : Vec Nat) : Reachable v → Reachable v.moveCtor.1.1

/-- Successive push_back calls; the second component totals the calls to
AllocTraits::allocate (one per resize). -/
def Vec.pushMany (v : Vec α) : List α → Vec α × Nat
  | [] => (v, 0)
  | x :: xs =>
    let p := v.emplaceBack x
    let q := p.1.pushMany xs
    (q.1, p.2 + q.2)

theorem pushMany_no_grow {α : Type} (l : List α) (v : Vec α)
    (h : v.elems.length + l.length ≤ v.capacity) :
    v.pushMany l = (⟨v.elems ++ l, v.capacity, v.hasBuf⟩, 0) := by
  induction l generalizing v with
  | nil => simp [Vec.pushMany]
  | cons x xs ih =>
    have hne : ¬ v.size = v.capacity := by
      simp only [Vec.size]
      simp only [List.length_cons] at h
      omega
    have hstep : v.emplaceBack x = ({ v with elems := v.elems ++ [x] }, 0) := by
      simp [Vec.emplaceBack, hne]
    have hrec := ih { v with elems := v.elems ++ [x] }
      (by simp only [List.length_append, List.length_cons, List.length_nil] at h ⊢; omega)
    simp [Vec.pushMany, hstep, hrec]

theorem findOffset_le_length [DecidableEq α] (l : List α) (x : α) :
    findOffset l x ≤ l.length := by
  induction l with
  | nil => simp [findOffset]
  | cons y ys ih =>
    by_cases h : y = x
    · simp [findOffset, h]
    · simp only [findOffset, if_neg h, List.length_cons]
      omega

theorem findOffset_eq_length_iff [DecidableEq α] (l : List α) (x : α) :
    findOffset l x = l.length ↔ x ∉ l := by
  induction l with
  | nil => simp [findOffset]
  | cons y ys ih =>
    by_cases h : y = x
    · subst h
      have := findOffset_le_length ys y
      simp [findOffset]
    · have hxy : ¬ x = y := fun he => h he.symm
      simp only [findOffset, if_neg h, List.length_cons, List.mem_cons, hxy,
        false_or, add_left_inj, ih]

theorem findOffset_get [DecidableEq α] (l : List α) (x : α) (hm : x ∈ l) :
    l[findOffset l x]? = some x := by
  induction l with
  | nil => cases hm
  | cons y ys ih =>
    by_cases h : y = x
    · simp [findOffset, h]
    · have hm2 : x ∈ ys := by
        rcases List.mem_cons.mp hm with he | hys
        · exact absurd he.symm h
        · exact hys
      simp [findOffset, h, ih hm2]

theorem findOffset_first [DecidableEq α] (l : List α) (x : α) (j : Nat)
    (hj : j < findOffset l x) : l[j]? ≠ some x := by
  induction l generalizing j with
  | nil => simp [findOffset] at hj
  | cons y ys ih =>
    by_cases h : y = x
    · simp [findOffset, h] at hj
    · rcases j with _ | k
      · simp [h]
      · have hk : k < findOffset ys x := by
          simp only [findOffset, if_neg h] at hj
          omega
        simpa using ih k hk

theorem findOffset_replicate_zero_append_one (n : Nat) :
    findOffset (List.replicate n (0 : Nat) ++ [1]) 1 = n := by
  induction n with
  | zero => simp [findOffset]
  | succ k ih =>
    rw [List.replicate_succ, List.cons_append]
    simp [findOffset, ih]

theorem indexOf_found [DecidableEq α] (v : Vec α) (x : α)
    (h : findOffset v.elems x ≠ v.size) :
    v.indexOf x = castIntToSizeT (findOffset v.elems x) := by
  simp [Vec.indexOf, h]

theorem mkFromList_elems (l : List Nat) : (Vec.mkFromList l).elems = l := rfl

theorem mkFromList_size (l : List Nat) : (Vec.mkFromList l).size = l.length := rfl

/-- C1: the claim says the bulk-byte-copy fast path of grow is behaviorally
identical to the element-wise move path for trivially copyable element
types.  The source calls memcpy(newData, data_, oldSize), copying oldSize
bytes instead of oldSize * sizeof(T) bytes, so for a 4-byte element the
moved vector loses all but the first size_ bytes: transferring the single
element with bytes [1, 1, 0, 0] (the int 257) copies one byte and the
element reads back as [1, j, j, j] from the new buffer; the element-wise
path keeps it intact.  The two paths therefore differ in behavior, not
only in performance. -/
theorem grow_memcpy_diverges_from_move_path :
    movePathElems [[1, 1, 0, 0]] = [[1, 1, 0, 0]] ∧
    memcpyPathElems 4 [[1, 1, 0, 0]] [0, 0, 0] = [[1, 0, 0, 0]] ∧
    memcpyPathElems 4 [[1, 1, 0, 0]] [0, 0, 0] ≠ movePathElems [[1, 1, 0, 0]] :=
  ⟨rfl, rfl, by decide⟩

/-- C2: the claim says a failed element transfer during grow releases the
new buffer and its partially constructed elements and leaves the original
buffer fully intact.  The catch handler of Vector::resize instead executes
AllocTraits::deallocate(alloc_, data_, oldSize): on a vector of size 2 in
buffer 0 whose element move constructor throws after one element, the
trace deallocates the ORIGINAL buffer 0 (leaving data_ dangling) and
never deallocates the new buffer 1, which leaks. -/
theorem resize_failure_frees_original_buffer :
    (resizeTrace ⟨0, 2, 2⟩ 4 1 (some 1)).1 = Except.error VErr.elementFailure ∧
    (resizeTrace ⟨0, 2, 2⟩ 4 1 (some 1)).2 =
      [MemAction.allocate 1 4, MemAction.moveConstruct 0 1 1,
       MemAction.destroyPartial 1 1, MemAction.deallocate 0 2] ∧
    MemAction.deallocate 0 2 ∈ (resizeTrace ⟨0, 2, 2⟩ 4 1 (some 1)).2 ∧
    ∀ a ∈ (resizeTrace ⟨0, 2, 2⟩ 4 1 (some 1)).2, a.deallocGets ≠ some 1 :=
  ⟨rfl, rfl, by decide, by decide⟩

/-- C3 counterexample: erase(1, 3) on [0, 1, 99, 2, 3, 4] yields
[0, 2, 3, 4] (it removes the two elements at indices 1 and 2), not
[0, 3, 4] as the claim states. -/
theorem erase_range_example_refuted :
    (Vec.mkFromList [0, 1, 99, 2, 3, 4]).eraseRange 1 3 =
      Except.ok (⟨[0, 2, 3, 4], 6, true⟩ : Vec Nat) ∧
    (⟨[0, 2, 3, 4], 6, true⟩ : Vec Nat).elems ≠ [0, 3, 4] :=
  ⟨rfl, by decide⟩

/-- C3 amended: erase(firstIndex, lastIndex) fails with OutOfRange when
firstIndex > lastIndex or lastIndex > size, is a no-op when the indices
are equal, and otherwise shifts the tail block left by
lastIndex - firstIndex and destroys the vacated trailing slots, so the
surviving sequence is take firstIndex ++ drop lastIndex; in particular
erase(1, 3) on [0, 1, 99, 2, 3, 4] succeeds and leaves [0, 2, 3, 4]. -/
theorem erase_range_spec (v : Vec Nat) (f t : Nat) :
    v.eraseRange f t =
      (if f > t ∨ t > v.size then Except.error VErr.outOfRange
       else Except.ok { v with elems := v.elems.take f ++ v.elems.drop t }) ∧
    (Vec.mkFromList [0, 1, 99, 2, 3, 4]).eraseRange 1 3 =
      Except.ok (⟨[0, 2, 3, 4], 6, true⟩ : Vec Nat) := by
  refine ⟨?_, rfl⟩
  unfold Vec.eraseRange
  by_cases hc : f > t ∨ t > v.size
  · rw [if_pos hc, if_pos hc]
  · rw [if_neg hc, if_neg hc]
    by_cases hft : f = t
    · subst hft
      simp [List.take_append_drop]
    · rw [if_neg hft]

/-- C4: the claim says pop_back fails with Underflow on an empty vector
(true: the state is unchanged and the error propagates) and otherwise
destroys exactly the element at index size - 1.  The
non-trivially-destructible branch of the source instead calls
AllocTraits::destroy(alloc_, data_ + size_) before decrementing size_:
on a vector of size 1 it destroys slot 1, one past the only live element
(slot 0 = size - 1, which the trivially-destructible branch targets), so
the live element is leaked and an uninitialized slot is destroyed. -/
theorem pop_back_destroys_slot_past_end :
    popBackDestroy 0 false = Except.error VErr.underflow ∧
    popBackDestroy 0 true = Except.error VErr.underflow ∧
    popBackDestroy 1 false = Except.ok (0, 1) ∧
    popBackDestroy 1 true = Except.ok (0, 0) ∧
    (1 : Nat) ≠ 1 - 1 :=
  ⟨rfl, rfl, rfl, rfl, by decide⟩

/-- C5 counterexample: with the target holding [5] in buffer 0 and the
source holding [7, 8], a copy assignment whose allocation fails leaves
the target with size 2, capacity 2 and a freed buffer - not in the state
it had before the call, refuting the claimed strong exception guarantee
(the source deallocates the old buffer and overwrites size_ and
capacity_ before allocating, with no try/catch and no copy-and-swap). -/
theorem copy_assign_failure_not_strong :
    (copyAssign (⟨0, 1, 1, [5], false⟩ : AVec Nat) ⟨1, 2, 2, [7, 8], false⟩ 2
        (some CopyFail.alloc)).1 ≠ ⟨0, 1, 1, [5], false⟩ ∧
    (copyAssign (⟨0, 1, 1, [5], false⟩ : AVec Nat) ⟨1, 2, 2, [7, 8], false⟩ 2
        (some CopyFail.alloc)).2 = some VErr.allocFailure :=
  ⟨by decide, rfl⟩

/-- C5 amended: copy assignment performs a deep copy - after a successful
assignment the target holds the source's elements in order in a freshly
allocated buffer distinct from the source's, so mutating either container
never changes the other - but it is not implemented via copy-and-swap and
offers no strong exception guarantee: the old buffer is deallocated and
size_/capacity_ overwritten before the new allocation, so an allocation
failure leaves the target with the source's size and capacity and a
dangling, already-freed buffer. -/
theorem copy_assign_spec (tgt src : AVec Nat) (freshBuf : Nat)
    (h : freshBuf ≠ src.buf) :
    (copyAssign tgt src freshBuf none).1.content = src.content ∧
    (copyAssign tgt src freshBuf none).1.buf ≠ src.buf ∧
    (copyAssign tgt src freshBuf none).1.bufFreed = false ∧
    (copyAssign tgt src freshBuf none).2 = none ∧
    (copyAssign tgt src freshBuf (some CopyFail.alloc)).1.size = src.size ∧
    (copyAssign tgt src freshBuf (some CopyFail.alloc)).1.capacity = src.capacity ∧
    (copyAssign tgt src freshBuf (some CopyFail.alloc)).1.bufFreed = true ∧
    (copyAssign tgt src freshBuf (some CopyFail.alloc)).2 = some VErr.allocFailure :=
  ⟨rfl, h, rfl, rfl, rfl, rfl, rfl, rfl⟩

/-- C5 witness: copy_assign_spec applied at a concrete target, source and
fresh buffer. -/
theorem copy_assign_spec_witness :
    (copyAssign (⟨0, 1, 1, [5], false⟩ : AVec Nat) ⟨1, 2, 2, [7, 8], false⟩ 2
        none).1.content = (⟨1, 2, 2, [7, 8], false⟩ : AVec Nat).content ∧
    (copyAssign (⟨0, 1, 1, [5], false⟩ : AVec Nat) ⟨1, 2, 2, [7, 8], false⟩ 2
        none).1.buf ≠ (⟨1, 2, 2, [7, 8], false⟩ : AVec Nat).buf ∧
    (copyAssign (⟨0, 1, 1, [5], false⟩ : AVec Nat) ⟨1, 2, 2, [7, 8], false⟩ 2
        none).1.bufFreed = false ∧
    (copyAssign (⟨0, 1, 1, [5], false⟩ : AVec Nat) ⟨1, 2, 2, [7, 8], false⟩ 2
        none).2 = none ∧
    (copyAssign (⟨0, 1, 1, [5], false⟩ : AVec Nat) ⟨1, 2, 2, [7, 8], false⟩ 2
        (some CopyFail.alloc)).1.size = (⟨1, 2, 2, [7, 8], false⟩ : AVec Nat).size ∧
    (copyAssign (⟨0, 1, 1, [5], false⟩ : AVec Nat) ⟨1, 2, 2, [7, 8], false⟩ 2
        (some CopyFail.alloc)).1.capacity
      = (⟨1, 2, 2, [7, 8], false⟩ : AVec Nat).capacity ∧
    (copyAssign (⟨0, 1, 1, [5], false⟩ : AVec Nat) ⟨1, 2, 2, [7, 8], false⟩ 2
        (some CopyFail.alloc)).1.bufFreed = true ∧
    (copyAssign (⟨0, 1, 1, [5], false⟩ : AVec Nat) ⟨1, 2, 2, [7, 8], false⟩ 2
        (some CopyFail.alloc)).2 = some VErr.allocFailure :=
  copy_assign_spec ⟨0, 1, 1, [5], false⟩ ⟨1, 2, 2, [7, 8], false⟩ 2 (by decide)

/-- C6: the claim says every growth, including the one triggered by insert
on a full container, reaches capacity max(r, capacity + capacity/2 + 1)
and that capacity 0 grows to at least 1.  The resize formula growCap does
equal max(r, capacity + capacity/2 + 1) for every capacity (third
conjunct), but insert requests only capacity_ + (capacity_ >> 1) - without
the + 1 used by emplace_back - so on a full container with capacity 1 it
requests 1, reserve(1) is a no-op, no reallocation happens, and the
container ends with size 2 and capacity still 1 (first conjunct) where the
claim requires capacity max(r, 1 + 0 + 1) = 2 (second conjunct shows the
formula value). -/
theorem insert_full_capacity_one_no_growth :
    (Vec.mkCountValue 1 (0 : Nat)).insert 9 1 =
      Except.ok (⟨[0, 9], 1, true⟩ : Vec Nat) ∧
    growCap 1 2 = 2 ∧
    ∀ cap r : Nat, growCap cap r = max r (cap + cap / 2 + 1) := by
  refine ⟨rfl, rfl, ?_⟩
  intro cap r
  unfold growCap
  rcases cap with _ | n
  · norm_num
  · rw [if_neg (Nat.succ_ne_zero n)]

/-- C7: move construction hands the destination exactly the source's prior
elements, capacity and buffer, resets the moved-from container to
size 0 / capacity 0 / null buffer, and performs no allocation; move
assignment does the same for the target (after releasing its old buffer)
and the moved-from source. -/
theorem move_transfers_and_resets_source (v tgt src : Vec Nat) :
    v.moveCtor.1.1 = v ∧
    v.moveCtor.1.2.size = 0 ∧
    v.moveCtor.1.2.capacity = 0 ∧
    v.moveCtor.1.2.hasBuf = false ∧
    v.moveCtor.2 = 0 ∧
    (tgt.moveAssign src).1.1.elems = src.elems ∧
    (tgt.moveAssign src).1.1.capacity = src.capacity ∧
    (tgt.moveAssign src).1.1.hasBuf = src.hasBuf ∧
    (tgt.moveAssign src).1.2.size = 0 ∧
    (tgt.moveAssign src).1.2.capacity = 0 ∧
    (tgt.moveAssign src).1.2.hasBuf = false ∧
    (tgt.moveAssign src).2 = 0 :=
  ⟨rfl, rfl, rfl, rfl, rfl, rfl, rfl, rfl, rfl, rfl, rfl, rfl⟩

/-- C8: the claim says size ≤ capacity holds in every reachable state.
The state with elements [0, 9] and capacity 1 is reachable - construct
with Vector(1, 0), then insert(9, 1) on the full container, whose growth
request capacity_ + (capacity_ >> 1) = 1 makes reserve a no-op - and it
has size 2 > capacity 1, violating the invariant (the construct writes
past the allocated buffer). -/
theorem reachable_violates_size_le_capacity :
    ∃ v : Vec Nat, Reachable v ∧ v.capacity < v.size := by
  refine ⟨⟨[0, 9], 1, true⟩, ?_, by decide⟩
  exact Reachable.ins (Vec.mkCountValue 1 0) ⟨[0, 9], 1, true⟩ 9 1
    (Reachable.count_value 1 0) rfl

/-- C9 counterexample: on a vector whose first element equal to the sought
value sits at index 2^31 (2^31 zeros followed by a single 1), index(1)
does not return 2^31: the found offset is returned through
static_cast<int> and back to size_t, producing 2^64 - 2^31. -/
theorem index_truncates_counterexample :
    findOffset (List.replicate 2147483648 (0 : Nat) ++ [1]) 1 = 2147483648 ∧
    (Vec.mkFromList (List.replicate 2147483648 (0 : Nat) ++ [1])).indexOf 1 =
      18446744071562067968 ∧
    (18446744071562067968 : Nat) ≠ 2147483648 := by
  have h1 := findOffset_replicate_zero_append_one 2147483648
  refine ⟨h1, ?_, by norm_num⟩
  have hlen : (List.replicate 2147483648 (0 : Nat) ++ [1]).length = 2147483649 := by
    rw [List.length_append, List.length_replicate]
    norm_num
  have hne : findOffset
      (Vec.mkFromList (List.replicate 2147483648 (0 : Nat) ++ [1])).elems 1
      ≠ (Vec.mkFromList (List.replicate 2147483648 (0 : Nat) ++ [1])).size := by
    rw [mkFromList_elems, mkFromList_size, h1, hlen]
    norm_num
  rw [indexOf_found _ _ hne, mkFromList_elems, h1]
  norm_num [castIntToSizeT]

/-- C9 amended: find(value) returns true exactly when a live element
equals the value; index(value) returns 2^64 - 1 (size_t(-1)) when no live
element equals the value, and otherwise returns the index of the first
matching live element passed through the int cast castIntToSizeT, which
is the identity for indices below 2^31. -/
theorem index_find_first_match (v : Vec Nat) (x : Nat) :
    (v.find x = true ↔ x ∈ v.elems) ∧
    (x ∉ v.elems → v.indexOf x = 18446744073709551615) ∧
    (x ∈ v.elems →
      v.indexOf x = castIntToSizeT (findOffset v.elems x) ∧
      v.elems[findOffset v.elems x]? = some x ∧
      ∀ j, j < findOffset v.elems x → v.elems[j]? ≠ some x) ∧
    (∀ i : Nat, i < 2147483648 → castIntToSizeT i = i) := by
  have hiff : findOffset v.elems x ≠ v.size ↔ x ∈ v.elems := by
    unfold Vec.size
    rw [Ne, findOffset_eq_length_iff, not_not]
  refine ⟨?_, ?_, ?_, ?_⟩
  · simp only [Vec.find, bne_iff_ne]
    exact hiff
  · intro hx
    have heq : findOffset v.elems x = v.size :=
      (findOffset_eq_length_iff v.elems x).mpr hx
    simp [Vec.indexOf, heq]
  · intro hx
    have hne : findOffset v.elems x ≠ v.size := hiff.mpr hx
    exact ⟨by simp [Vec.indexOf, hne], findOffset_get v.elems x hx,
      fun j hj => findOffset_first v.elems x j hj⟩
  · intro i hi
    have h32 : i % 4294967296 = i := Nat.mod_eq_of_lt (by omega)
    simp [castIntToSizeT, h32, hi]

/-- C9 witness: index_find_first_match applied at the vector [5, 7] and
the value 7. -/
theorem index_find_first_match_witness :
    ((Vec.mkFromList [5, 7]).find 7 = true ↔ 7 ∈ (Vec.mkFromList [5, 7]).elems) ∧
    (7 ∉ (Vec.mkFromList [5, 7]).elems →
      (Vec.mkFromList [5, 7]).indexOf 7 = 18446744073709551615) ∧
    (7 ∈ (Vec.mkFromList [5, 7]).elems →
      (Vec.mkFromList [5, 7]).indexOf 7 =
        castIntToSizeT (findOffset (Vec.mkFromList [5, 7]).elems 7) ∧
      (Vec.mkFromList [5, 7]).elems[findOffset (Vec.mkFromList [5, 7]).elems 7]?
        = some 7 ∧
      ∀ j, j < findOffset (Vec.mkFromList [5, 7]).elems 7 →
        (Vec.mkFromList [5, 7]).elems[j]? ≠ some 7) ∧
    (∀ i : Nat, i < 2147483648 → castIntToSizeT i = i) :=
  index_find_first_match (Vec.mkFromList [5, 7]) 7

/-- C10: a default-constructed container has size 0, is empty, has
capacity 10 and an allocated buffer, and any run of at most ten pushBack
calls performs zero further allocations (no reallocation), appending the
pushed values in order with capacity still 10. -/
theorem default_ctor_ten_pushes_no_realloc (l : List Nat) (h : l.length ≤ 10) :
    (Vec.mkDefault : Vec Nat).size = 0 ∧
    (Vec.mkDefault : Vec Nat).isEmpty = true ∧
    (Vec.mkDefault : Vec Nat).capacity = 10 ∧
    (Vec.mkDefault : Vec Nat).hasBuf = true ∧
    (Vec.mkDefault : Vec Nat).pushMany l = (⟨l, 10, true⟩, 0) := by
  refine ⟨rfl, rfl, rfl, rfl, ?_⟩
  have hmain := pushMany_no_grow l (Vec.mkDefault : Vec Nat)
    (by simpa [Vec.mkDefault] using h)
  simpa [Vec.mkDefault] using hmain

/-- C10 witness: default_ctor_ten_pushes_no_realloc applied at the
ten-element list 0..9. -/
theorem default_ctor_ten_pushes_no_realloc_witness :
    (Vec.mkDefault : Vec Nat).size = 0 ∧
    (Vec.mkDefault : Vec Nat).isEmpty = true ∧
    (Vec.mkDefault : Vec Nat).capacity = 10 ∧
    (Vec.mkDefault : Vec Nat).hasBuf = true ∧
    (Vec.mkDefault : Vec Nat).pushMany [0, 1, 2, 3, 4, 5, 6, 7, 8, 9] =
      (⟨[0, 1, 2, 3, 4, 5, 6, 7, 8, 9], 10, true⟩, 0) :=
  default_ctor_ten_pushes_no_realloc [0, 1, 2, 3, 4, 5, 6, 7, 8, 9] (by decide)

end CustomVector
